import Mathlib

/-!
# NDN Peer: Interest/Data exchange logic of `src/peer.cpp`

A shallow embedding of `ns3::ndn::Peer` (`SendInterest`, `ScheduleNextPacket`,
`OnInterest`, `OnData`, and the lifecycle hooks) together with the small part
of the packet library and of the event scheduler these methods call.

Conventions of the embedding:

* a name is the list of its components; a component is its TLV-TYPE and the
  bytes of its TLV-VALUE;
* an `ns3::Time` is the signed number of nanoseconds it holds (the scheduler's
  default resolution); a packet-library duration is a signed number of
  milliseconds;
* every method takes the state before the call and returns the state after
  it, the list of effects it had on its collaborators (trace hooks, the
  application link, the routing table) in program order, and the exception
  that left the method, if any;
* the constructors and setters of the packet library that the methods call
  are field updates; the two library calls of `OnData` that can raise
  (`Name::at`, `Component::toSequenceNumber`) are modelled with their
  exception;
* `NS_LOG_*` lines and the `std::cout` progress messages are not part of the
  model.
-/

namespace NdnPeer

/-! ## Packet model -/

/-- One name component: its TLV-TYPE and the bytes of its TLV-VALUE. -/
structure Component where
  tlvType : Nat
  value : List Nat
deriving DecidableEq, Repr

/-- A hierarchical name: the components from the root outwards. -/
abbrev Name := List Component

/-- TLV-TYPE of a generic name component. -/
def GenericNameComponent : Nat := 8

/-- TLV-TYPE of a typed sequence-number component. -/
def SequenceNumNameComponent : Nat := 37

/-- First value byte of a marker-encoded sequence-number component (0xFE). -/
def SEQUENCE_NUMBER_MARKER : Nat := 254

/-- The bytes of a character string, one byte per character (the strings
built in this program are decimal digits). -/
def stringBytes (s : String) : List Nat := s.toList.map Char.toNat

/-- A generic component whose value is the bytes of a string, which is what
`Name::append` makes of a `std::string`. -/
def Component.fromString (s : String) : Component :=
  { tlvType := GenericNameComponent, value := stringBytes s }

/-- Appending a string to a name adds one generic component at the end. -/
def nameAppend (n : Name) (s : String) : Name := n ++ [Component.fromString s]

/-- Text that `operator<<` writes for an unsigned integer: its decimal digits. -/
def decimalString (n : Nat) : String := Nat.repr n

/-- Exceptions of the packet library that can leave `OnData`. -/
inductive Error where
  /-- `Name::Error`: the requested component does not exist. -/
  | nameOutOfRange
  /-- `Component::Error`: not a sequence-number component. -/
  | notSequenceNumber
deriving DecidableEq, Repr

deriving instance DecidableEq for Except

/-- Component lookup `Name::at(i)`: a negative index counts from the end, and
an index outside the name raises `Name::Error`. -/
def nameAt (n : Name) (i : Int) : Except Error Component :=
  let idx : Int := if i < 0 then (n.length : Int) + i else i
  if idx < 0 ∨ (n.length : Int) ≤ idx then Except.error Error.nameOutOfRange
  else
    match n.get? idx.toNat with
    | some c => Except.ok c
    | none => Except.error Error.nameOutOfRange

/-- Big-endian value of a byte string (a TLV nonNegativeInteger). -/
def readNonNegativeInteger (bs : List Nat) : Nat :=
  bs.foldl (fun acc b => acc * 256 + b) 0

/-- Whether the value is the marker byte followed by a 1, 2, 4 or 8 byte
nonNegativeInteger. -/
def Component.isNumberWithMarker (marker : Nat) (c : Component) : Bool :=
  (c.value.length == 2 || c.value.length == 3 || c.value.length == 5 ||
    c.value.length == 9) && c.value.head? == some marker

/-- Whether the value is a 1, 2, 4 or 8 byte nonNegativeInteger. -/
def Component.isNumber (c : Component) : Bool :=
  c.value.length == 1 || c.value.length == 2 || c.value.length == 4 ||
    c.value.length == 8

/-- Decoder `Component::toSequenceNumber`: accepts a marker-encoded
sequence number (marker byte 0xFE, then the number) and a typed
sequence-number component, and raises `Component::Error` on anything else. -/
def Component.toSequenceNumber (c : Component) : Except Error Nat :=
  if c.isNumberWithMarker SEQUENCE_NUMBER_MARKER then
    Except.ok (readNonNegativeInteger c.value.tail)
  else if c.tlvType == SequenceNumNameComponent && c.isNumber then
    Except.ok (readNonNegativeInteger c.value)
  else Except.error Error.notSequenceNumber

/-- An Interest packet: the fields `SendInterest` sets. -/
structure Interest where
  name : Name
  nonce : Nat
  interestLifetime : Int
deriving DecidableEq, Repr

/-- A Data packet: the fields `OnInterest` sets and `OnData` reads. -/
structure Data where
  name : Name
  /-- Freshness period in milliseconds. -/
  freshnessPeriod : Int
  content : List Nat
  signatureType : Nat
  keyLocator : Option Name
  signatureValue : Nat
  /-- The hop-count tag attached by the link layer, when there is one. -/
  hopCountTag : Option Nat
deriving DecidableEq, Repr

/-! ## Scheduler -/

/-- A pending event of the scheduler: its identifier and the time at which it
runs. Only the events that invoke `Peer::SendInterest` are modelled. -/
structure ScheduledEvent where
  uid : Nat
  ts : Int
deriving DecidableEq, Repr

/-- The discrete-event scheduler: current time in nanoseconds, the
identifier the next event will get, and the pending events in the order they
were scheduled. -/
structure Simulator where
  now : Int
  uid : Nat
  events : List ScheduledEvent
deriving DecidableEq, Repr

/-- An `EventId` handle: `none` is the default-constructed handle, `some u`
refers to the event with identifier `u`. -/
abbrev EventId := Option Nat

/-- Scheduling with `Simulator::Schedule(delay, ...)`: the event is queued
at `now + delay` under a new identifier, and its handle is returned. -/
def Simulator.Schedule (sim : Simulator) (delay : Int) : Simulator × EventId :=
  ({ sim with uid := sim.uid + 1,
              events := sim.events ++ [{ uid := sim.uid, ts := sim.now + delay }] },
   some sim.uid)

/-- Test `EventId::IsRunning`: the handle refers to an event that is still
pending. -/
def Simulator.IsRunning (sim : Simulator) (ev : EventId) : Bool :=
  match ev with
  | none => false
  | some u => sim.events.any (fun e => e.uid == u)

/-- The pending event the scheduler runs next: the earliest one, the older
identifier first among equals. -/
def Simulator.next (sim : Simulator) : Option ScheduledEvent :=
  sim.events.foldl
    (fun best e =>
      match best with
      | none => some e
      | some b => if e.ts < b.ts ∨ (e.ts = b.ts ∧ e.uid < b.uid) then some e else some b)
    none

/-- Duration `Seconds(1.0)` in nanoseconds. -/
def oneSecond : Int := 1000000000

/-- Conversion `Time::GetMilliSeconds`: whole milliseconds of a nanosecond
count, by integer division (rounding toward zero). -/
def GetMilliSeconds (t : Int) : Int := Int.tdiv t 1000000

/-- Nanoseconds of a packet-library duration given in milliseconds. -/
def millisecondsToNanoseconds (ms : Int) : Int := ms * 1000000

/-! ## Peer state -/

/-- Members of `Peer` that the methods of `src/peer.cpp` read or write. -/
structure Peer where
  m_prefix : Name
  m_interestName : Name
  m_postfix : Name
  m_virtualPayloadSize : Nat
  m_interestLifeTime : Int
  m_freshness : Int
  m_signature : Nat
  m_keyLocator : Name
  m_seq : Nat
  m_active : Bool
  m_sendEvent : EventId
  /-- Modelled from the spec: the class declaration (`peer.hpp`) is not among
  the sources; section 3 of the specification lists `outstanding_requests`, a
  map from sequence number to send time, as part of the peer state. -/
  outstanding_requests : List (Nat × Int)
deriving DecidableEq, Repr

/-- One peer together with the scheduler it runs under. -/
structure World where
  peer : Peer
  sim : Simulator
deriving DecidableEq, Repr

/-- What a method does to its collaborators. -/
inductive Effect where
  /-- Trace `m_receivedInterests`, fired by `App::OnInterest`. -/
  | receivedInterests (i : Interest)
  /-- Trace `m_receivedDatas`, fired by `App::OnData`. -/
  | receivedDatas (d : Data)
  /-- Trace `m_transmittedInterests`. -/
  | transmittedInterests (i : Interest)
  /-- Trace `m_transmittedDatas`. -/
  | transmittedDatas (d : Data)
  /-- Call `m_appLink->onReceiveInterest`: the Interest goes to the transport. -/
  | onReceiveInterest (i : Interest)
  /-- Call `m_appLink->onReceiveData`: the Data goes to the transport. -/
  | onReceiveData (d : Data)
  /-- Call `FibHelper::AddRoute` for a name with a cost. -/
  | addRoute (n : Name) (cost : Nat)
  /-- Trace `m_lastRetransmittedInterestDataDelay`: a round-trip sample
  (sequence number, delay, hop count). -/
  | lastRetransmittedInterestDataDelay (seq : Nat) (delay : Int) (hopCount : Int)
  /-- Trace `m_firstInterestDataDelay`: a round-trip sample with the
  retransmission count. -/
  | firstInterestDataDelay (seq : Nat) (delay : Int) (retx : Nat) (hopCount : Int)
deriving DecidableEq, Repr

/-- Result of one method call. -/
structure Outcome where
  world : World
  effects : List Effect
  raised : Option Error
deriving DecidableEq, Repr

/-- Interests handed to the transport. -/
def interestsToTransport : List Effect → List Interest
  | [] => []
  | Effect.onReceiveInterest i :: es => i :: interestsToTransport es
  | _ :: es => interestsToTransport es

/-- Data packets handed to the transport. -/
def dataToTransport : List Effect → List Data
  | [] => []
  | Effect.onReceiveData d :: es => d :: dataToTransport es
  | _ :: es => dataToTransport es

/-- Data packets that appear in any effect a peer has as a producer. -/
def dataProduced : List Effect → List Data
  | [] => []
  | Effect.onReceiveData d :: es => d :: dataProduced es
  | Effect.transmittedDatas d :: es => d :: dataProduced es
  | _ :: es => dataProduced es

/-- Round-trip samples among the effects: sequence number and delay. -/
def rttSamples : List Effect → List (Nat × Int)
  | [] => []
  | Effect.lastRetransmittedInterestDataDelay s d _ :: es => (s, d) :: rttSamples es
  | Effect.firstInterestDataDelay s d _ _ :: es => (s, d) :: rttSamples es
  | _ :: es => rttSamples es

/-! ## Methods of `Peer` -/

/-- Method `Peer::ScheduleNextPacket` (lines 147-153). -/
def ScheduleNextPacket (w : World) : World :=
  if !w.sim.IsRunning w.peer.m_sendEvent then
    let r := w.sim.Schedule oneSecond
    { peer := { w.peer with m_sendEvent := r.2 }, sim := r.1 }
  else w

/-- Method `Peer::SendInterest` (lines 118-145). `seqBits` is the width of the
unsigned counter `m_seq`, whose declaration is in `peer.hpp`; `r` is the
value drawn from `m_rand` for the nonce. -/
def SendInterest (seqBits : Nat) (r : Nat) (w : World) : Outcome :=
  let interestName := nameAppend w.peer.m_interestName (decimalString w.peer.m_seq)
  let peer1 := { w.peer with m_seq := (w.peer.m_seq + 1) % 2 ^ seqBits }
  let interest : Interest :=
    { name := interestName
      nonce := r % 2 ^ 32
      interestLifetime := GetMilliSeconds w.peer.m_interestLifeTime }
  { world := ScheduleNextPacket { w with peer := peer1 }
    effects := [Effect.transmittedInterests interest, Effect.onReceiveInterest interest]
    raised := none }

/-- Method `Peer::OnInterest` (lines 155-196). -/
def OnInterest (w : World) (interest : Interest) : Outcome :=
  if !w.peer.m_active then
    { world := w, effects := [Effect.receivedInterests interest], raised := none }
  else
    let data : Data :=
      { name := interest.name
        freshnessPeriod := GetMilliSeconds w.peer.m_freshness
        content := List.replicate w.peer.m_virtualPayloadSize 0
        signatureType := 255
        keyLocator :=
          if w.peer.m_keyLocator.length > 0 then some w.peer.m_keyLocator else none
        signatureValue := w.peer.m_signature
        hopCountTag := none }
    { world := w
      effects := [Effect.receivedInterests interest, Effect.transmittedDatas data,
        Effect.onReceiveData data]
      raised := none }

/-- Sequence extraction of `OnData` (line 214): the last component of the
name, decoded as a sequence number and stored in a `uint32_t`. -/
def OnData.seq (data : Data) : Except Error Nat :=
  match nameAt data.name (-1) with
  | Except.error e => Except.error e
  | Except.ok c =>
    match c.toSequenceNumber with
    | Except.error e => Except.error e
    | Except.ok s => Except.ok (s % 2 ^ 32)

/-- Hop count of `OnData` (lines 217-221): the tag value, or 0 without tag. -/
def OnData.hopCount (data : Data) : Int :=
  match data.hopCountTag with
  | some h => (h : Int)
  | none => 0

/-- Method `Peer::OnData` (lines 200-246). The statements after the hop-count
extraction are inside a comment in the source, so nothing follows it. -/
def OnData (w : World) (data : Data) : Outcome :=
  if !w.peer.m_active then { world := w, effects := [], raised := none }
  else
    match OnData.seq data with
    | Except.error e =>
      { world := w, effects := [Effect.receivedDatas data], raised := some e }
    | Except.ok _ =>
      { world := w, effects := [Effect.receivedDatas data], raised := none }

/-- Modelled from the spec: `App::StartApplication` is not among the sources;
the lifecycle hook sets `active`, after which `Peer::StartApplication`
(lines 100-108) registers the route for the producer name. -/
def StartApplication (w : World) : Outcome :=
  { world := { w with peer := { w.peer with m_active := true } }
    effects := [Effect.addRoute ( Peer.m_prefix w.peer) 0]
    raised := none }

/-- Modelled from the spec: `App::StopApplication` is not among the sources;
the lifecycle hook clears `active`. `Peer::StopApplication` (lines 110-116)
adds nothing to it, and the send event is not cancelled. -/
def StopApplication (w : World) : Outcome :=
  { world := { w with peer := { w.peer with m_active := false } }
    effects := []
    raised := none }

/-! ## Runs -/

/-- The scheduler runs the next pending event, which calls `SendInterest`:
the event leaves the queue and the clock moves to its time first. -/
def fire (seqBits : Nat) (r : Nat) (w : World) : Outcome :=
  match w.sim.next with
  | none => { world := w, effects := [], raised := none }
  | some e =>
    SendInterest seqBits r
      { w with sim := { w.sim with now := e.ts, events := w.sim.events.erase e } }

/-- What can happen to a peer. -/
inductive Action where
  | start
  | stop
  | schedule
  | send (r : Nat)
  | fire (r : Nat)
  | interest (i : Interest)
  | data (d : Data)
deriving DecidableEq, Repr

/-- One action on a world. -/
def step (seqBits : Nat) (w : World) : Action → Outcome
  | Action.start => StartApplication w
  | Action.stop => StopApplication w
  | Action.schedule => { world := ScheduleNextPacket w, effects := [], raised := none }
  | Action.send r => SendInterest seqBits r w
  | Action.fire r => fire seqBits r w
  | Action.interest i => OnInterest w i
  | Action.data d => OnData w d

/-- The world after a sequence of actions. -/
def run (seqBits : Nat) (w : World) : List Action → World
  | [] => w
  | a :: as => run seqBits (step seqBits w a).world as

/-- Consecutive calls of `SendInterest`, one per nonce draw: the Interests
handed to the transport, in order, and the world afterwards. -/
def emissions (seqBits : Nat) (w : World) : List Nat → List Interest × World
  | [] => ([], w)
  | r :: rs =>
    let o := SendInterest seqBits r w
    let rest := emissions seqBits o.world rs
    (interestsToTransport o.effects ++ rest.1, rest.2)

/-- Number of pending emission timers. -/
def pendingTimers (w : World) : Nat := w.sim.events.length

/-- A peer that has not scheduled anything yet: no pending event, and the
send handle as its default constructor leaves it. -/
def World.fresh (w : World) : Prop := w.sim.events = [] ∧ w.peer.m_sendEvent = none

instance (w : World) : Decidable w.fresh := by
  unfold World.fresh
  infer_instance

/-- The timer invariant: nothing is pending, or exactly one event is pending
and the send handle of the peer refers to it. -/
def TimerInv (w : World) : Prop :=
  w.sim.events = [] ∨ ∃ e, w.sim.events = [e] ∧ w.peer.m_sendEvent = some e.uid

/-! ## Sample states -/

/-- A started peer that requests under `/a`, with the default payload size,
lifetime and freshness, a postfix `/p` and no key locator. -/
def examplePeer : Peer :=
  { m_prefix := [Component.fromString "a"]
    m_interestName := [Component.fromString "a"]
    m_postfix := [Component.fromString "p"]
    m_virtualPayloadSize := 1024
    m_interestLifeTime := 2000000000
    m_freshness := 0
    m_signature := 0
    m_keyLocator := []
    m_seq := 0
    m_active := true
    m_sendEvent := none
    outstanding_requests := [] }

/-- The sample peer under a scheduler with nothing pending. -/
def exampleWorld : World :=
  { peer := examplePeer, sim := { now := 0, uid := 4, events := [] } }

/-- The sample peer with a 32-bit counter at its largest value. -/
def wrapWorld : World :=
  { exampleWorld with peer := { examplePeer with m_seq := 4294967295 } }

/-- The sample peer with a key locator `/k` configured. -/
def keyWorld : World :=
  { exampleWorld with peer := { examplePeer with m_keyLocator := [Component.fromString "k"] } }

/-- The sample peer with a freshness period of 1.2 milliseconds. -/
def freshWorld : World :=
  { exampleWorld with peer := { examplePeer with m_freshness := 1200000 } }

/-- The sample peer with a freshness period of two milliseconds. -/
def twoMsWorld : World :=
  { exampleWorld with peer := { examplePeer with m_freshness := 2000000 } }

/-- The sample peer with a freshness period of half a millisecond. -/
def briefWorld : World :=
  { exampleWorld with peer := { examplePeer with m_freshness := 500000 } }

/-- The sample peer with an empty payload. -/
def emptyPayloadWorld : World :=
  { exampleWorld with peer := { examplePeer with m_virtualPayloadSize := 0 } }

/-- The sample peer after it was stopped. -/
def stoppedWorld : World :=
  { exampleWorld with peer := { examplePeer with m_active := false } }

/-- An Interest with the empty name. -/
def rootInterest : Interest := { name := [], nonce := 1, interestLifetime := 2000 }

/-- An Interest named `/a/0`, as the sample peer emits it first. -/
def firstInterest : Interest :=
  { name := [Component.fromString "a", Component.fromString "0"], nonce := 1,
    interestLifetime := 2000 }

/-- A Data with the empty name. -/
def rootData : Data :=
  { name := [], freshnessPeriod := 0, content := [], signatureType := 255,
    keyLocator := none, signatureValue := 0, hopCountTag := none }

/-- A Data named `/a/1` with the trailing component as SendInterest writes
it (the ASCII digit), tagged with hop count 3. -/
def echoedData : Data :=
  { name := [Component.fromString "a", Component.fromString "1"], freshnessPeriod := 0,
    content := [], signatureType := 255, keyLocator := none, signatureValue := 0,
    hopCountTag := some 3 }

/-- A Data named `/a/<seq 1>` with the trailing component in the marker
encoding of sequence number 1 (bytes 0xFE 0x01), tagged with hop count 3. -/
def markedData : Data :=
  { name := [Component.fromString "a", { tlvType := 8, value := [254, 1] }],
    freshnessPeriod := 0, content := [], signatureType := 255, keyLocator := none,
    signatureValue := 0, hopCountTag := some 3 }

/-- The sample peer after three emissions, with the three requests recorded
as outstanding (sequence number and send time). -/
def trackingWorld : World :=
  { exampleWorld with
    peer := { examplePeer with m_seq := 3, outstanding_requests := [(0, 0), (1, 0), (2, 0)] } }

/-- A Data named `/a/0`, the name of the first Interest of the sample peer
echoed by a responder: the trailing component is the ASCII digit. -/
def zeroData : Data :=
  { name := firstInterest.name, freshnessPeriod := 0,
    content := List.replicate 4 0, signatureType := 255, keyLocator := none,
    signatureValue := 0, hopCountTag := none }

/-- A Data named `/hello`, a single generic component of five letters. -/
def helloData : Data :=
  { name := [Component.fromString "hello"], freshnessPeriod := 0, content := [],
    signatureType := 255, keyLocator := none, signatureValue := 0, hopCountTag := none }

/-- A sample run: start, two calls of ScheduleNextPacket, a timer expiry, an
Interest, another expiry. -/
def exampleActions : List Action :=
  [Action.start, Action.schedule, Action.schedule, Action.fire 5,
   Action.interest firstInterest, Action.fire 6]

/-! ## Basic facts -/

theorem ScheduleNextPacket_peer (w : World) :
    (ScheduleNextPacket w).peer =
      { w.peer with m_sendEvent := (ScheduleNextPacket w).peer.m_sendEvent } := by
  unfold ScheduleNextPacket
  split <;> rfl

theorem SendInterest_m_interestName (seqBits r : Nat) (w : World) :
    (SendInterest seqBits r w).world.peer.m_interestName = w.peer.m_interestName := by
  unfold SendInterest
  simp only
  rw [ScheduleNextPacket_peer]

theorem SendInterest_m_seq (seqBits r : Nat) (w : World) :
    (SendInterest seqBits r w).world.peer.m_seq = (w.peer.m_seq + 1) % 2 ^ seqBits := by
  unfold SendInterest
  simp only
  rw [ScheduleNextPacket_peer]

theorem SendInterest_interests (seqBits r : Nat) (w : World) :
    interestsToTransport (SendInterest seqBits r w).effects =
      [{ name := w.peer.m_interestName ++ [Component.fromString (decimalString w.peer.m_seq)]
         nonce := r % 2 ^ 32
         interestLifetime := GetMilliSeconds w.peer.m_interestLifeTime }] := by
  simp [SendInterest, interestsToTransport, nameAppend]

theorem emissions_cons (seqBits r : Nat) (rs : List Nat) (w : World) :
    emissions seqBits w (r :: rs) =
      (interestsToTransport (SendInterest seqBits r w).effects ++
        (emissions seqBits (SendInterest seqBits r w).world rs).1,
       (emissions seqBits (SendInterest seqBits r w).world rs).2) := rfl

/-- Names of consecutive emissions: as long as the counter does not wrap
before the last emission, the j-th name is the base name followed by the
decimal string of the start counter plus j. -/
theorem emissions_names (seqBits : Nat) :
    ∀ (rs : List Nat) (w : World), w.peer.m_seq + rs.length ≤ 2 ^ seqBits →
      (emissions seqBits w rs).1.map Interest.name =
        (List.range rs.length).map (fun j =>
          w.peer.m_interestName ++ [Component.fromString (decimalString (w.peer.m_seq + j))]) := by
  intro rs
  induction rs with
  | nil => intro w _; rfl
  | cons r rs ih =>
    intro w h
    have hpos : 0 < 2 ^ seqBits := Nat.pos_pow_of_pos _ (by decide)
    rw [emissions_cons]
    simp only [List.map_append, SendInterest_interests, List.map_cons, List.map_nil,
      List.length_cons, List.range_succ_eq_map, List.map_map, List.singleton_append,
      Nat.add_zero]
    congr 1
    cases rs with
    | nil => rfl
    | cons r2 rs2 =>
      simp only [List.length_cons] at h ih ⊢
      have hlt : w.peer.m_seq + 1 < 2 ^ seqBits := by omega
      have hseq : (SendInterest seqBits r w).world.peer.m_seq = w.peer.m_seq + 1 := by
        rw [SendInterest_m_seq, Nat.mod_eq_of_lt hlt]
      rw [ih (SendInterest seqBits r w).world (by rw [hseq]; omega)]
      rw [hseq, SendInterest_m_interestName]
      apply List.map_congr_left
      intro j _
      simp only [Function.comp, Nat.succ_eq_add_one]
      rw [Nat.add_assoc, Nat.add_comm 1 j]

/-- Counter after consecutive emissions: the start counter plus their
number, modulo the counter width. -/
theorem emissions_m_seq (seqBits : Nat) :
    ∀ (rs : List Nat) (w : World), rs ≠ [] →
      (emissions seqBits w rs).2.peer.m_seq = (w.peer.m_seq + rs.length) % 2 ^ seqBits := by
  intro rs
  induction rs with
  | nil => intro w h; exact absurd rfl h
  | cons r rs ih =>
    intro w _
    rw [emissions_cons]
    simp only [List.length_cons]
    cases rs with
    | nil => simp [emissions, SendInterest_m_seq]
    | cons r2 rs2 =>
      rw [ih _ (by simp), SendInterest_m_seq]
      simp only [List.length_cons]
      rw [Nat.mod_add_mod]
      congr 1
      omega

/-! ## Name construction and the sequence counter -/

/-- C1 (amended): for every counter width, peer state with base name B and
counter n, and nonce draw, if n + 1 does not reach the bound of the counter
then SendInterest hands the transport exactly one Interest, named B followed
by one more component, the decimal string of n, and leaves the counter at
n + 1; and k consecutive emissions starting from counter n, with n + k at
most the bound, carry the trailing components n, n+1, ..., n+k-1 in order. -/
theorem SendInterest_appends_counter (seqBits : Nat) (w : World) (r : Nat) (rs : List Nat)
    (h1 : w.peer.m_seq + 1 < 2 ^ seqBits)
    (hk : w.peer.m_seq + rs.length ≤ 2 ^ seqBits) :
    (interestsToTransport (SendInterest seqBits r w).effects).map Interest.name =
        [w.peer.m_interestName ++ [Component.fromString (decimalString w.peer.m_seq)]]
    ∧ (SendInterest seqBits r w).world.peer.m_seq = w.peer.m_seq + 1
    ∧ (emissions seqBits w rs).1.map Interest.name =
        (List.range rs.length).map (fun j =>
          w.peer.m_interestName ++ [Component.fromString (decimalString (w.peer.m_seq + j))]) := by
  refine ⟨?_, ?_, emissions_names seqBits rs w hk⟩
  · rw [SendInterest_interests]; rfl
  · rw [SendInterest_m_seq, Nat.mod_eq_of_lt h1]

/-- C1, witness: the sample peer (base `/a`, counter 0, 32-bit counter) and
three emissions. -/
theorem SendInterest_appends_counter_witness :
    (exampleWorld.peer.m_seq + 1 < 2 ^ 32 ∧ exampleWorld.peer.m_seq + [5, 6, 7].length ≤ 2 ^ 32)
    ∧ ((interestsToTransport (SendInterest 32 5 exampleWorld).effects).map Interest.name =
        [exampleWorld.peer.m_interestName ++
          [Component.fromString (decimalString exampleWorld.peer.m_seq)]]
      ∧ (SendInterest 32 5 exampleWorld).world.peer.m_seq = exampleWorld.peer.m_seq + 1
      ∧ (emissions 32 exampleWorld [5, 6, 7]).1.map Interest.name =
          (List.range [5, 6, 7].length).map (fun j =>
            exampleWorld.peer.m_interestName ++
              [Component.fromString (decimalString (exampleWorld.peer.m_seq + j))])) :=
  ⟨⟨by decide, by decide⟩,
    SendInterest_appends_counter 32 exampleWorld 5 [5, 6, 7] (by decide) (by decide)⟩

/-- Scenario of the specification: base `/a` from counter 0 yields `/a/0`,
`/a/1`, `/a/2`, the trailing components being the ASCII digits. -/
theorem emissions_example :
    (emissions 32 exampleWorld [5, 6, 7]).1.map Interest.name =
      [[⟨8, [97]⟩, ⟨8, [48]⟩], [⟨8, [97]⟩, ⟨8, [49]⟩], [⟨8, [97]⟩, ⟨8, [50]⟩]]
    ∧ (emissions 32 exampleWorld [5, 6, 7]).2.peer.m_seq = 3 := by
  decide

/-- C1, counterexample: with a 32-bit counter at 4294967295, SendInterest
leaves the counter at 0, not at 4294967296, and the second of two
consecutive emissions carries the component 0. -/
theorem SendInterest_counter_wraps :
    wrapWorld.peer.m_seq = 4294967295
    ∧ (SendInterest 32 5 wrapWorld).world.peer.m_seq = 0
    ∧ (SendInterest 32 5 wrapWorld).world.peer.m_seq ≠ wrapWorld.peer.m_seq + 1
    ∧ (emissions 32 wrapWorld [5, 6]).1.map Interest.name =
        [wrapWorld.peer.m_interestName ++ [Component.fromString (decimalString 4294967295)],
         wrapWorld.peer.m_interestName ++ [Component.fromString (decimalString 0)]] := by
  decide

/-- Whatever the width of the counter, an emission at its largest value
leaves the counter at 0. -/
theorem SendInterest_wraps_any_width (seqBits r : Nat) (w : World)
    (h : w.peer.m_seq + 1 = 2 ^ seqBits) :
    (SendInterest seqBits r w).world.peer.m_seq = 0 := by
  rw [SendInterest_m_seq, h, Nat.mod_self]

/-! ## The producer role -/

/-- An active peer answers an Interest with one Data, built from the
Interest name and the configuration, and changes nothing in its state. -/
theorem OnInterest_active (w : World) (interest : Interest) (h : w.peer.m_active = true) :
    OnInterest w interest =
      { world := w
        effects :=
          [Effect.receivedInterests interest,
           Effect.transmittedDatas
            { name := interest.name
              freshnessPeriod := GetMilliSeconds w.peer.m_freshness
              content := List.replicate w.peer.m_virtualPayloadSize 0
              signatureType := 255
              keyLocator :=
                if w.peer.m_keyLocator.length > 0 then some w.peer.m_keyLocator else none
              signatureValue := w.peer.m_signature
              hopCountTag := none },
           Effect.onReceiveData
            { name := interest.name
              freshnessPeriod := GetMilliSeconds w.peer.m_freshness
              content := List.replicate w.peer.m_virtualPayloadSize 0
              signatureType := 255
              keyLocator :=
                if w.peer.m_keyLocator.length > 0 then some w.peer.m_keyLocator else none
              signatureValue := w.peer.m_signature
              hopCountTag := none }]
        raised := none } := by
  simp [OnInterest, h]

/-- C2: for every active peer and every Interest, OnInterest returns
normally and hands the transport exactly one Data, whose name is the name of
the Interest, whatever the postfix (and the rest of the configuration) is. -/
theorem OnInterest_data_name (w : World) (interest : Interest)
    (h : w.peer.m_active = true) :
    (OnInterest w interest).raised = none
    ∧ ∃ d, dataToTransport (OnInterest w interest).effects = [d] ∧ d.name = interest.name := by
  rw [OnInterest_active w interest h]
  exact ⟨rfl, _, rfl, rfl⟩

/-- C2, witness: the sample peer, whose postfix is `/p`, and the Interest
with the empty name. -/
theorem OnInterest_data_name_witness :
    exampleWorld.peer.m_active = true
    ∧ ((OnInterest exampleWorld rootInterest).raised = none
      ∧ ∃ d, dataToTransport (OnInterest exampleWorld rootInterest).effects = [d]
          ∧ d.name = rootInterest.name) :=
  ⟨rfl, OnInterest_data_name exampleWorld rootInterest rfl⟩

/-- C7: for every active peer and every Interest, the one Data handed to the
transport carries no key locator when the configured key locator is the empty
name, and carries the configured name as key locator when it is not empty. -/
theorem OnInterest_key_locator (w : World) (interest : Interest)
    (h : w.peer.m_active = true) :
    ∃ d, dataToTransport (OnInterest w interest).effects = [d]
      ∧ (w.peer.m_keyLocator = [] → d.keyLocator = none)
      ∧ (w.peer.m_keyLocator ≠ [] → d.keyLocator = some w.peer.m_keyLocator) := by
  rw [OnInterest_active w interest h]
  refine ⟨_, rfl, ?_, ?_⟩
  · intro hk
    simp [hk]
  · intro hk
    have : 0 < w.peer.m_keyLocator.length := List.length_pos.mpr hk
    simp [this]

/-- C7, witness: the sample peer with key locator `/k`. -/
theorem OnInterest_key_locator_witness :
    keyWorld.peer.m_active = true
    ∧ ∃ d, dataToTransport (OnInterest keyWorld firstInterest).effects = [d]
      ∧ (keyWorld.peer.m_keyLocator = [] → d.keyLocator = none)
      ∧ (keyWorld.peer.m_keyLocator ≠ [] → d.keyLocator = some keyWorld.peer.m_keyLocator) :=
  ⟨rfl, OnInterest_key_locator keyWorld firstInterest rfl⟩

/-- Both configurations of the key locator on the sample peer: unset gives no
key locator, `/k` gives the key locator `/k`. -/
theorem key_locator_example :
    (dataToTransport (OnInterest exampleWorld firstInterest).effects).map Data.keyLocator = [none]
    ∧ (dataToTransport (OnInterest keyWorld firstInterest).effects).map Data.keyLocator
        = [some [⟨8, [107]⟩]] := by
  decide

/-- C9: for every active peer with payload size P and every Interest, the one
Data handed to the transport has a content of exactly P bytes, and the content
is the same for every other Interest. -/
theorem OnInterest_content_length (w : World) (interest : Interest)
    (h : w.peer.m_active = true) :
    ∃ d, dataToTransport (OnInterest w interest).effects = [d]
      ∧ d.content.length = w.peer.m_virtualPayloadSize
      ∧ ∀ other : Interest, ∃ d2, dataToTransport (OnInterest w other).effects = [d2]
          ∧ d2.content = d.content := by
  rw [OnInterest_active w interest h]
  refine ⟨_, rfl, by simp, ?_⟩
  intro other
  rw [OnInterest_active w other h]
  exact ⟨_, rfl, rfl⟩

/-- C9, witness: the sample peer with payload size 0. -/
theorem OnInterest_content_length_witness :
    emptyPayloadWorld.peer.m_active = true
    ∧ ∃ d, dataToTransport (OnInterest emptyPayloadWorld firstInterest).effects = [d]
      ∧ d.content.length = emptyPayloadWorld.peer.m_virtualPayloadSize
      ∧ ∀ other : Interest,
          ∃ d2, dataToTransport (OnInterest emptyPayloadWorld other).effects = [d2]
            ∧ d2.content = d.content :=
  ⟨rfl, OnInterest_content_length emptyPayloadWorld firstInterest rfl⟩

theorem GetMilliSeconds_of_nonneg (t : Int) (h : 0 ≤ t) : GetMilliSeconds t = t / 1000000 := by
  unfold GetMilliSeconds
  exact Int.tdiv_eq_ediv h (by decide)

/-- C8 (amended): for every active peer with freshness period F and every
Interest, the one Data handed to the transport carries F converted to whole
milliseconds, rounded toward zero: freshness 0 (unlimited) when F = 0; for
F > 0 the largest whole number of milliseconds not above F; and exactly T
when F is a whole number T of milliseconds. -/
theorem OnInterest_freshness (w : World) (interest : Interest)
    (h : w.peer.m_active = true) :
    ∃ d, dataToTransport (OnInterest w interest).effects = [d]
      ∧ (w.peer.m_freshness = 0 → d.freshnessPeriod = 0)
      ∧ (0 < w.peer.m_freshness →
          millisecondsToNanoseconds d.freshnessPeriod ≤ w.peer.m_freshness
          ∧ w.peer.m_freshness < millisecondsToNanoseconds d.freshnessPeriod + 1000000)
      ∧ (∀ T : Int, 0 < T → w.peer.m_freshness = millisecondsToNanoseconds T →
          d.freshnessPeriod = T) := by
  rw [OnInterest_active w interest h]
  refine ⟨_, rfl, ?_, ?_, ?_⟩
  · intro h0
    simp [h0, GetMilliSeconds]
  · intro hpos
    simp only [millisecondsToNanoseconds]
    rw [GetMilliSeconds_of_nonneg _ (le_of_lt hpos)]
    constructor <;> omega
  · intro T hT hF
    simp only [millisecondsToNanoseconds] at hF
    have hnn : 0 ≤ w.peer.m_freshness := by omega
    simp only
    rw [GetMilliSeconds_of_nonneg _ hnn]
    omega

/-- C8, witness: the sample peer with a freshness period of 2 ms. -/
theorem OnInterest_freshness_witness :
    twoMsWorld.peer.m_active = true
    ∧ ∃ d, dataToTransport (OnInterest twoMsWorld firstInterest).effects = [d]
      ∧ (twoMsWorld.peer.m_freshness = 0 → d.freshnessPeriod = 0)
      ∧ (0 < twoMsWorld.peer.m_freshness →
          millisecondsToNanoseconds d.freshnessPeriod ≤ twoMsWorld.peer.m_freshness
          ∧ twoMsWorld.peer.m_freshness
              < millisecondsToNanoseconds d.freshnessPeriod + 1000000)
      ∧ (∀ T : Int, 0 < T → twoMsWorld.peer.m_freshness = millisecondsToNanoseconds T →
          d.freshnessPeriod = T) :=
  ⟨rfl, OnInterest_freshness twoMsWorld firstInterest rfl⟩

/-- The two cases of the attribute on the sample peer: freshness 0 gives 0
(unlimited), freshness 2 ms gives 2 ms. -/
theorem freshness_example :
    (dataToTransport (OnInterest exampleWorld firstInterest).effects).map
        Data.freshnessPeriod = [0]
    ∧ (dataToTransport (OnInterest twoMsWorld firstInterest).effects).map
        Data.freshnessPeriod = [2] := by
  decide

/-- C8, counterexample: with a freshness period of 1.2 ms the Data carries
1 ms, which is not the configured period; with a freshness period of 0.5 ms,
which is positive, the Data carries 0, the mark of unlimited freshness. -/
theorem freshness_truncated_to_milliseconds :
    (freshWorld.peer.m_active = true ∧ 0 < freshWorld.peer.m_freshness
      ∧ (dataToTransport (OnInterest freshWorld firstInterest).effects).map
          Data.freshnessPeriod = [1]
      ∧ millisecondsToNanoseconds 1 ≠ freshWorld.peer.m_freshness)
    ∧ (briefWorld.peer.m_active = true ∧ 0 < briefWorld.peer.m_freshness
      ∧ (dataToTransport (OnInterest briefWorld firstInterest).effects).map
          Data.freshnessPeriod = [0]) := by
  decide

/-! ## The activity gate -/

/-- C3: while active is false, for every Interest and every Data, OnInterest
and OnData return normally, leave the whole state (peer and scheduler)
as it was, hand nothing to the transport and produce no Data; OnData has no
effect at all, and the only effect of OnInterest is the reception trace. -/
theorem inactive_no_effect (w : World) (interest : Interest) (data : Data)
    (h : w.peer.m_active = false) :
    ((OnInterest w interest).world = w
      ∧ (OnInterest w interest).raised = none
      ∧ (OnInterest w interest).effects = [Effect.receivedInterests interest]
      ∧ dataToTransport (OnInterest w interest).effects = []
      ∧ interestsToTransport (OnInterest w interest).effects = []
      ∧ dataProduced (OnInterest w interest).effects = [])
    ∧ ((OnData w data).world = w
      ∧ (OnData w data).raised = none
      ∧ (OnData w data).effects = []) := by
  simp [OnInterest, OnData, h, dataToTransport, interestsToTransport, dataProduced]

/-- C3, witness: the stopped sample peer, an Interest `/a/0` and a Data with
the empty name. -/
theorem inactive_no_effect_witness :
    stoppedWorld.peer.m_active = false
    ∧ (((OnInterest stoppedWorld firstInterest).world = stoppedWorld
        ∧ (OnInterest stoppedWorld firstInterest).raised = none
        ∧ (OnInterest stoppedWorld firstInterest).effects
            = [Effect.receivedInterests firstInterest]
        ∧ dataToTransport (OnInterest stoppedWorld firstInterest).effects = []
        ∧ interestsToTransport (OnInterest stoppedWorld firstInterest).effects = []
        ∧ dataProduced (OnInterest stoppedWorld firstInterest).effects = [])
      ∧ ((OnData stoppedWorld rootData).world = stoppedWorld
        ∧ (OnData stoppedWorld rootData).raised = none
        ∧ (OnData stoppedWorld rootData).effects = [])) :=
  ⟨rfl, inactive_no_effect stoppedWorld firstInterest rootData rfl⟩

/-! ## The consumer role on arrival of Data -/

/-- An active peer whose sequence extraction fails lets the exception leave
OnData, after the reception trace and with the state as it was. -/
theorem OnData_raises (w : World) (data : Data) (e : Error)
    (h : w.peer.m_active = true) (he : OnData.seq data = Except.error e) :
    OnData w data =
      { world := w, effects := [Effect.receivedDatas data], raised := some e } := by
  simp [OnData, h, he]

/-- An active peer whose sequence extraction succeeds returns after the
reception trace, with the state as it was. -/
theorem OnData_returns (w : World) (data : Data) (s : Nat)
    (h : w.peer.m_active = true) (hs : OnData.seq data = Except.ok s) :
    OnData w data =
      { world := w, effects := [Effect.receivedDatas data], raised := none } := by
  simp [OnData, h, hs]

/-- The sequence extraction fails on every name without components. -/
theorem OnData_seq_empty (data : Data) (h : data.name = []) :
    OnData.seq data = Except.error Error.nameOutOfRange := by
  simp [OnData.seq, nameAt, h]

theorem nameAt_last (n : Name) (c : Component) : nameAt (n ++ [c]) (-1) = Except.ok c := by
  unfold nameAt
  have hidx : ((List.length (n ++ [c]) : Nat) : Int) + (-1) = (n.length : Int) := by
    simp
  simp only [show ((-1 : Int) < 0) from by decide, if_true, hidx]
  have h2 : ¬ ((n.length : Int) < 0 ∨ ((List.length (n ++ [c]) : Nat) : Int) ≤ (n.length : Int)) := by
    simp
  rw [if_neg h2]
  simp

theorem digitChar_toNat_lt (d : Nat) (h : d < 10) : (Nat.digitChar d).toNat < 128 := by
  interval_cases d <;> decide

theorem toDigitsCore_toNat_lt (fuel : Nat) :
    ∀ (n : Nat) (ds : List Char), (∀ c ∈ ds, c.toNat < 128) →
      ∀ c ∈ Nat.toDigitsCore 10 fuel n ds, c.toNat < 128 := by
  induction fuel with
  | zero => intro n ds hds c hc; exact hds c (by simpa [Nat.toDigitsCore] using hc)
  | succ fuel ih =>
    intro n ds hds c hc
    have hcons : ∀ c ∈ Nat.digitChar (n % 10) :: ds, c.toNat < 128 := by
      intro c hc
      rcases List.mem_cons.mp hc with rfl | hc
      · exact digitChar_toNat_lt _ (Nat.mod_lt _ (by decide))
      · exact hds c hc
    simp only [Nat.toDigitsCore] at hc
    split at hc
    · exact hcons c hc
    · exact ih _ _ hcons c hc

/-- Every byte of the decimal string of a number is an ASCII character. -/
theorem decimalString_bytes_lt (n : Nat) : ∀ b ∈ stringBytes (decimalString n), b < 128 := by
  intro b hb
  simp only [stringBytes, decimalString, Nat.repr, Nat.toDigits, List.asString,
    List.mem_map] at hb
  obtain ⟨c, hc, rfl⟩ := hb
  exact toDigitsCore_toNat_lt _ _ [] (by simp) c hc

/-- The component SendInterest appends is never a sequence-number component
for the decoder: it is generic, and its first byte is not the marker. -/
theorem toSequenceNumber_decimalString (n : Nat) :
    (Component.fromString (decimalString n)).toSequenceNumber
      = Except.error Error.notSequenceNumber := by
  have hmarker : (stringBytes (decimalString n)).head? ≠ some SEQUENCE_NUMBER_MARKER := by
    intro hh
    have hmem : SEQUENCE_NUMBER_MARKER ∈ stringBytes (decimalString n) :=
      List.mem_of_mem_head? hh
    have := decimalString_bytes_lt n _ hmem
    simp [SEQUENCE_NUMBER_MARKER] at this
  simp [Component.toSequenceNumber, Component.isNumberWithMarker, Component.fromString,
    hmarker, GenericNameComponent, SequenceNumNameComponent]

/-- The sequence extraction of OnData fails on every name that ends in the
component SendInterest appends for a counter value. -/
theorem OnData_seq_emitted (data : Data) (base : Name) (n : Nat)
    (h : data.name = nameAppend base (decimalString n)) :
    OnData.seq data = Except.error Error.notSequenceNumber := by
  simp [OnData.seq, h, nameAppend, nameAt_last, toSequenceNumber_decimalString]

/-- Emission, echo and extraction in a row: whatever the counter width, the
consumer state, the nonce and the active responder, the sequence extraction
of OnData fails on the Data that OnInterest builds for the Interest that
SendInterest emits. -/
theorem SendInterest_OnInterest_OnData_seq (seqBits r : Nat) (w responder : World)
    (h : responder.peer.m_active = true) :
    ((interestsToTransport (SendInterest seqBits r w).effects).flatMap
        (fun i => dataToTransport (OnInterest responder i).effects)).map OnData.seq
      = [Except.error Error.notSequenceNumber] := by
  rw [SendInterest_interests]
  simp only [List.flatMap_cons, List.flatMap_nil, List.append_nil]
  rw [OnInterest_active _ _ h]
  simp only [dataToTransport, List.map_cons, List.map_nil]
  rw [OnData_seq_emitted _ w.peer.m_interestName w.peer.m_seq rfl]

/-- C10, the code at the failing input: the sample peer emits `/a/0`,
`/a/1`, `/a/2`; the Data that OnInterest builds for `/a/1` is named `/a/1`;
on that Data the sequence extraction of OnData does not yield 1 but fails
with the decoder's exception, which leaves OnData. -/
theorem emitted_name_not_decoded :
    (emissions 32 exampleWorld [5, 6, 7]).1.map Interest.name =
      [[Component.fromString "a", Component.fromString "0"],
       [Component.fromString "a", Component.fromString "1"],
       [Component.fromString "a", Component.fromString "2"]]
    ∧ (dataToTransport (OnInterest exampleWorld
          { name := echoedData.name, nonce := 6, interestLifetime := 2000 }).effects).map
        Data.name = [echoedData.name]
    ∧ OnData.seq echoedData = Except.error Error.notSequenceNumber
    ∧ OnData.seq echoedData ≠ Except.ok 1
    ∧ (OnData (emissions 32 exampleWorld [5, 6, 7]).2 echoedData).raised
        = some Error.notSequenceNumber := by
  decide

/-- C5, the code at the failing inputs: on the active sample peer, the Data
named `/a/0` that answers its first Interest, a Data named `/hello` and a Data
with the empty name each make OnData end with an exception of the packet
library instead of returning; the state is as before. -/
theorem undecodable_name_raises :
    exampleWorld.peer.m_active = true
    ∧ OnData exampleWorld zeroData =
        { world := exampleWorld, effects := [Effect.receivedDatas zeroData],
          raised := some Error.notSequenceNumber }
    ∧ OnData exampleWorld helloData =
        { world := exampleWorld, effects := [Effect.receivedDatas helloData],
          raised := some Error.notSequenceNumber }
    ∧ OnData exampleWorld rootData =
        { world := exampleWorld, effects := [Effect.receivedDatas rootData],
          raised := some Error.nameOutOfRange } := by
  decide

/-- Every active peer, on every Data whose name is empty or whose last
component the decoder rejects, ends OnData with the exception. -/
theorem OnData_raised_of_seq_error (w : World) (data : Data) (e : Error)
    (h : w.peer.m_active = true) (he : OnData.seq data = Except.error e) :
    (OnData w data).raised = some e ∧ (OnData w data).world = w := by
  rw [OnData_raises w data e h he]
  exact ⟨rfl, rfl⟩

/-- SendInterest records nothing: the outstanding requests are as before. -/
theorem SendInterest_outstanding_requests (seqBits r : Nat) (w : World) :
    (SendInterest seqBits r w).world.peer.outstanding_requests
      = w.peer.outstanding_requests := by
  unfold SendInterest
  simp only
  rw [ScheduleNextPacket_peer]

/-- C4 (amended): for every active peer and every Data whose trailing name
component decodes to a sequence number s, tracked or not, OnData returns
normally after the reception trace, leaves every field of the state as it
was, so that no entry of the outstanding requests is removed, and produces no
RTT sample; SendInterest does not add an entry either. -/
theorem OnData_decoded_no_bookkeeping (seqBits r : Nat) (w : World) (data : Data) (s : Nat)
    (h : w.peer.m_active = true) (hs : OnData.seq data = Except.ok s) :
    (OnData w data).raised = none
    ∧ (OnData w data).world = w
    ∧ (OnData w data).effects = [Effect.receivedDatas data]
    ∧ rttSamples (OnData w data).effects = []
    ∧ (SendInterest seqBits r w).world.peer.outstanding_requests
        = w.peer.outstanding_requests := by
  rw [OnData_returns w data s h hs]
  exact ⟨rfl, rfl, rfl, rfl, SendInterest_outstanding_requests seqBits r w⟩

/-- C4, witness: the sample peer with requests 0, 1, 2 recorded, and a Data
whose trailing component is the marker encoding of sequence number 1. -/
theorem OnData_decoded_no_bookkeeping_witness :
    (trackingWorld.peer.m_active = true ∧ OnData.seq markedData = Except.ok 1)
    ∧ ((OnData trackingWorld markedData).raised = none
      ∧ (OnData trackingWorld markedData).world = trackingWorld
      ∧ (OnData trackingWorld markedData).effects = [Effect.receivedDatas markedData]
      ∧ rttSamples (OnData trackingWorld markedData).effects = []
      ∧ (SendInterest 32 5 trackingWorld).world.peer.outstanding_requests
          = trackingWorld.peer.outstanding_requests) :=
  ⟨⟨rfl, by decide⟩,
    OnData_decoded_no_bookkeeping 32 5 trackingWorld markedData 1 rfl (by decide)⟩

/-- C4, counterexample: the active sample peer tracks sequence numbers 0, 1
and 2, and receives a Data whose trailing component decodes to 1 with hop
count 3; afterwards the entry for 1 is still there and there is no RTT
sample, so not exactly one. -/
theorem OnData_keeps_outstanding_entry :
    trackingWorld.peer.m_active = true
    ∧ trackingWorld.peer.outstanding_requests.lookup 1 = some 0
    ∧ OnData.seq markedData = Except.ok 1
    ∧ OnData.hopCount markedData = 3
    ∧ (OnData trackingWorld markedData).world.peer.outstanding_requests.lookup 1 = some 0
    ∧ (rttSamples (OnData trackingWorld markedData).effects).length = 0
    ∧ (rttSamples (OnData trackingWorld markedData).effects).length ≠ 1 := by
  decide

/-! ## The emission timer -/

theorem ScheduleNextPacket_of_not_running (w : World)
    (h : w.sim.IsRunning w.peer.m_sendEvent = false) :
    ScheduleNextPacket w =
      { peer := { w.peer with m_sendEvent := some w.sim.uid }
        sim := { now := w.sim.now, uid := w.sim.uid + 1,
                 events := w.sim.events ++ [{ uid := w.sim.uid, ts := w.sim.now + oneSecond }] } } := by
  simp [ScheduleNextPacket, h, Simulator.Schedule]

theorem ScheduleNextPacket_of_running (w : World)
    (h : w.sim.IsRunning w.peer.m_sendEvent = true) : ScheduleNextPacket w = w := by
  simp [ScheduleNextPacket, h]

/-- After ScheduleNextPacket the send handle refers to a pending event. -/
theorem ScheduleNextPacket_running (w : World) :
    (ScheduleNextPacket w).sim.IsRunning (ScheduleNextPacket w).peer.m_sendEvent = true := by
  cases h : w.sim.IsRunning w.peer.m_sendEvent with
  | true => rw [ScheduleNextPacket_of_running w h]; exact h
  | false =>
    rw [ScheduleNextPacket_of_not_running w h]
    simp [Simulator.IsRunning]

/-- A second call of ScheduleNextPacket changes nothing, in any state. -/
theorem ScheduleNextPacket_idem (w : World) :
    ScheduleNextPacket (ScheduleNextPacket w) = ScheduleNextPacket w :=
  ScheduleNextPacket_of_running _ (ScheduleNextPacket_running w)

theorem TimerInv_ScheduleNextPacket (w : World) (h : TimerInv w) :
    TimerInv (ScheduleNextPacket w) ∧ pendingTimers (ScheduleNextPacket w) = 1 := by
  rcases h with h0 | ⟨e, he, hid⟩
  · have hrun : w.sim.IsRunning w.peer.m_sendEvent = false := by
      unfold Simulator.IsRunning
      cases w.peer.m_sendEvent <;> simp [h0]
    rw [ScheduleNextPacket_of_not_running w hrun]
    constructor
    · right
      exact ⟨{ uid := w.sim.uid, ts := w.sim.now + oneSecond }, by simp [h0], rfl⟩
    · simp [pendingTimers, h0]
  · have hrun : w.sim.IsRunning w.peer.m_sendEvent = true := by
      simp [Simulator.IsRunning, hid, he]
    rw [ScheduleNextPacket_of_running w hrun]
    exact ⟨Or.inr ⟨e, he, hid⟩, by simp [pendingTimers, he]⟩

theorem TimerInv_pendingTimers (w : World) (h : TimerInv w) : pendingTimers w ≤ 1 := by
  rcases h with h0 | ⟨e, he, _⟩
  · simp [pendingTimers, h0]
  · simp [pendingTimers, he]

theorem TimerInv_SendInterest (seqBits r : Nat) (w : World) (h : TimerInv w) :
    TimerInv (SendInterest seqBits r w).world := by
  unfold SendInterest
  simp only
  apply (TimerInv_ScheduleNextPacket _ _).1
  exact h

theorem TimerInv_fire (seqBits r : Nat) (w : World) (h : TimerInv w) :
    TimerInv (fire seqBits r w).world := by
  unfold fire
  rcases h with h0 | ⟨e, he, hid⟩
  · simp only [Simulator.next, h0, List.foldl_nil]
    exact Or.inl h0
  · simp only [Simulator.next, he, List.foldl_cons, List.foldl_nil]
    apply TimerInv_SendInterest
    left
    simp

theorem TimerInv_step (seqBits : Nat) (w : World) (a : Action) (h : TimerInv w) :
    TimerInv (step seqBits w a).world := by
  cases a with
  | start => exact h
  | stop => exact h
  | schedule => exact (TimerInv_ScheduleNextPacket w h).1
  | send r => exact TimerInv_SendInterest seqBits r w h
  | fire r => exact TimerInv_fire seqBits r w h
  | interest i =>
    simp only [step, OnInterest]
    split <;> exact h
  | data d =>
    simp only [step, OnData]
    split
    · exact h
    · split <;> exact h

theorem TimerInv_run (seqBits : Nat) (acts : List Action) :
    ∀ w : World, TimerInv w → TimerInv (run seqBits w acts) := by
  induction acts with
  | nil => intro w h; exact h
  | cons a as ih => intro w h; exact ih _ (TimerInv_step seqBits w a h)

/-- C6: in every state w, a call of ScheduleNextPacket arms a timer one
second ahead and stores its handle when none is running, and changes nothing
when one is running, and a second call right after it changes nothing; in
every state a peer reaches from a fresh one (by start and stop, calls of
ScheduleNextPacket and SendInterest, timer expiry, and arrival of Interests
and Data) at most one emission timer is pending, and after two calls of
ScheduleNextPacket in succession exactly one is pending. -/
theorem ScheduleNextPacket_twice (seqBits : Nat) (w w0 : World) (acts : List Action)
    (h : w0.fresh) :
    (w.sim.IsRunning w.peer.m_sendEvent = false →
        (ScheduleNextPacket w).sim.events =
            w.sim.events ++ [{ uid := w.sim.uid, ts := w.sim.now + 1000000000 }]
        ∧ (ScheduleNextPacket w).peer.m_sendEvent = some w.sim.uid)
    ∧ (w.sim.IsRunning w.peer.m_sendEvent = true → ScheduleNextPacket w = w)
    ∧ ScheduleNextPacket (ScheduleNextPacket w) = ScheduleNextPacket w
    ∧ pendingTimers (run seqBits w0 acts) ≤ 1
    ∧ pendingTimers (ScheduleNextPacket (ScheduleNextPacket (run seqBits w0 acts))) = 1 := by
  have hinv : TimerInv (run seqBits w0 acts) := TimerInv_run seqBits acts w0 (Or.inl h.1)
  refine ⟨?_, ScheduleNextPacket_of_running w, ScheduleNextPacket_idem w,
    TimerInv_pendingTimers _ hinv, ?_⟩
  · intro hrun
    rw [ScheduleNextPacket_of_not_running _ hrun]
    exact ⟨rfl, rfl⟩
  · rw [ScheduleNextPacket_idem]
    exact (TimerInv_ScheduleNextPacket _ hinv).2

/-- C6, witness: the sample peer, fresh, run through a start, two calls of
ScheduleNextPacket, a timer expiry, an Interest and another expiry. -/
theorem ScheduleNextPacket_twice_witness :
    exampleWorld.fresh
    ∧ ((exampleWorld.sim.IsRunning exampleWorld.peer.m_sendEvent = false →
          (ScheduleNextPacket exampleWorld).sim.events =
              exampleWorld.sim.events ++
                [{ uid := exampleWorld.sim.uid, ts := exampleWorld.sim.now + 1000000000 }]
          ∧ (ScheduleNextPacket exampleWorld).peer.m_sendEvent = some exampleWorld.sim.uid)
      ∧ (exampleWorld.sim.IsRunning exampleWorld.peer.m_sendEvent = true →
          ScheduleNextPacket exampleWorld = exampleWorld)
      ∧ ScheduleNextPacket (ScheduleNextPacket exampleWorld) = ScheduleNextPacket exampleWorld
      ∧ pendingTimers (run 32 exampleWorld exampleActions) ≤ 1
      ∧ pendingTimers
          (ScheduleNextPacket (ScheduleNextPacket (run 32 exampleWorld exampleActions))) = 1) :=
  ⟨⟨rfl, rfl⟩, ScheduleNextPacket_twice 32 exampleWorld exampleWorld exampleActions ⟨rfl, rfl⟩⟩

/-- The sample run, evaluated: two calls of ScheduleNextPacket on the fresh
peer leave the one timer of the first call, due at one second; after the run
the clock is at two seconds, two Interests were sent, and the one pending
timer is due at three seconds. -/
theorem timer_example :
    (ScheduleNextPacket (ScheduleNextPacket exampleWorld)).sim.events
        = [{ uid := 4, ts := 1000000000 }]
    ∧ (run 32 exampleWorld exampleActions).sim.now = 2000000000
    ∧ (run 32 exampleWorld exampleActions).peer.m_seq = 2
    ∧ (run 32 exampleWorld exampleActions).sim.events = [{ uid := 6, ts := 3000000000 }]
    ∧ (run 32 exampleWorld exampleActions).peer.m_sendEvent = some 6 := by
  decide

end NdnPeer
